import Mathlib

/-
Verification of the complex Morlet continuous wavelet transform layer
implemented in CWT/cwt.py.

The development embeds, as Lean definitions:
  * the geometric scale / frequency generation of ComplexMorletCWT.__init__
    (lines 179-186);
  * the constructor validation of ComplexMorletCWT.__init__ (lines 161-169);
  * the wavelet bank synthesis of ComplexMorletCWT._build_wavelet_bank
    (lines 195-227), including the kernel sizing from the initial wavelet
    width and the per-scale Morlet formula evaluated at the current wavelet
    width;
  * the layer state: the bank is computed once at construction (line 31)
    and stored; the wavelet-width variable (line 188) can be mutated later
    without the stored bank changing;
  * the call pipeline of ContinuousWaveletTransform.call (lines 41-91):
    layout transpose, SAME-padded strided cross-correlation against the
    stored bank (TensorFlow conv2d is cross-correlation; the imaginary
    filter is negated as on line 74), border cropping by Python slicing,
    and output formatting (complex concatenation / magnitude / phase);
  * a shape-level semantics of the same pipeline, where each backend
    tensor operation checks the shape contract documented for it
    (tf.transpose, tf.expand_dims, tf.nn.conv2d with leading batch
    dimensions, subscript slicing, tf.concat).

Machine floats are modelled by real numbers; Python ints by Nat/Int with
Python semantics (floor division on naturals, int() truncation toward
zero) made explicit.
-/

/-! ### SAME padding and border cropping (integer layer) -/

/-- Output length along a convolved axis under SAME padding with the given
stride, as documented for tf.nn.conv2d: ceil(inLen / stride), computed here
with natural-number arithmetic. -/
def sameOutLen (inLen stride : ℕ) : ℕ := (inLen + stride - 1) / stride

/-- Left padding applied by SAME padding: half (rounded down) of
max((outLen - 1) * stride + kernel - inLen, 0); truncated natural
subtraction realises the max with 0. -/
def samePadLeft (inLen kernel stride : ℕ) : ℕ :=
  ((sameOutLen inLen stride - 1) * stride + kernel - inLen) / 2

/-- Python slice l[crop : -crop] when crop > 0 and l[crop :] when crop = 0,
exactly as built on lines 59-61 of cwt.py (start = crop, end = -crop when
crop > 0 else None). -/
def cropSlice {α : Type} (l : List α) (crop : ℕ) : List α :=
  (if 0 < crop then l.take (l.length - crop) else l).drop crop

theorem cropSlice_length {α : Type} (l : List α) (crop : ℕ) :
    (cropSlice l crop).length = l.length - 2 * crop := by
  unfold cropSlice
  split
  · simp only [List.length_drop, List.length_take]
    omega
  · simp only [List.length_drop]
    omega

theorem cropSlice_getElem {α : Type} (l : List α) (crop t : ℕ)
    (h : t < (cropSlice l crop).length) :
    (cropSlice l crop).get ⟨t, h⟩ = l.get ⟨crop + t, by
      have := cropSlice_length l crop; omega⟩ := by
  unfold cropSlice at h ⊢
  split at h
  next hc =>
    simp only [if_pos hc, List.get_eq_getElem, List.getElem_drop, List.getElem_take]
  next hc =>
    simp only [if_neg hc, List.get_eq_getElem, List.getElem_drop]

/-! ### Shape-level semantics of the backend tensor operations used by call

Shapes are lists of dimension extents.  Each operation returns an error
exactly when the shape contract of the corresponding TensorFlow primitive
is violated; the repository relies on conv2d accepting inputs of rank at
least 4 with extra leading axes treated as batch dimensions (the comment
on line 66 of cwt.py feeds a rank-5 tensor to conv2d). -/

/-- Shape semantics of tf.transpose: the permutation length must equal the
input rank. -/
def tfTransposeShape (perm sh : List ℕ) : Except String (List ℕ) :=
  if perm.length = sh.length then Except.ok (perm.map (fun i => sh.getD i 0))
  else Except.error "transpose permutation length does not match rank"

/-- Shape semantics of tf.expand_dims: the axis must be at most the input
rank; a dimension of extent 1 is inserted there. -/
def tfExpandDimsShape (axis : ℕ) (sh : List ℕ) : Except String (List ℕ) :=
  if axis ≤ sh.length then Except.ok (sh.take axis ++ 1 :: sh.drop axis)
  else Except.error "expand_dims axis out of range"

/-- Shape semantics of tf.nn.conv2d with SAME padding, height stride 1 and
width stride `strideW`: the filter is rank 4, the input has rank at least 4
whose last three axes are height, width, channels (leading axes are batch
dimensions), and the input channel extent must equal the filter one. -/
def tfConv2dShape (inSh filtSh : List ℕ) (strideW : ℕ) : Except String (List ℕ) :=
  match filtSh with
  | [_, _, fin, fout] =>
    if 4 ≤ inSh.length then
      if inSh.getD (inSh.length - 1) 0 = fin then
        Except.ok (inSh.take (inSh.length - 3) ++
          [sameOutLen (inSh.getD (inSh.length - 3) 0) 1,
           sameOutLen (inSh.getD (inSh.length - 2) 0) strideW, fout])
      else Except.error "conv2d input channels do not match filter"
    else Except.error "conv2d input rank below 4"
  | _ => Except.error "conv2d filter must have rank 4"

/-- Shape semantics of the subscript out[:, :, 0, start:end, :] on lines
78-79 of cwt.py: five subscripts need rank at least 5, the integer index 0
needs a non-empty third axis, and the slice shortens the fourth axis by
crop at both ends. -/
def tfCropIndexShape (crop : ℕ) (sh : List ℕ) : Except String (List ℕ) :=
  match sh with
  | d0 :: d1 :: d2 :: d3 :: d4 :: rest =>
    if 1 ≤ d2 then Except.ok (d0 :: d1 :: (d3 - 2 * crop) :: d4 :: rest)
    else Except.error "index 0 out of bounds on axis 2"
  | _ => Except.error "more subscripts than axes"

/-- Shape semantics of tf.concat along axis 1: both inputs have rank at
least 2 and agree everywhere except on axis 1, which is summed. -/
def tfConcatAxis1Shape (sh1 sh2 : List ℕ) : Except String (List ℕ) :=
  match sh1, sh2 with
  | a :: b :: r1, c :: d :: r2 =>
    if a = c ∧ r1 = r2 then Except.ok (a :: (b + d) :: r1)
    else Except.error "concat shapes incompatible"
  | _, _ => Except.error "concat rank below 2"

/-- Shape-level semantics of ContinuousWaveletTransform.call (lines 58-91
of cwt.py): the sequence of backend operations applied to an input of the
given shape, with the wavelet bank shaped [1, kernelSize, 1, nScales]. -/
def cwtCallShape (dataFormat outputformat : String) (stride borderCrop : ℕ)
    (nScales kernelSize : ℕ) (inSh : List ℕ) : Except String (List ℕ) := do
  let crop := borderCrop / stride
  let x1 ← if dataFormat = "channels_last"
           then tfTransposeShape [0, 2, 1] inSh
           else Except.ok inSh
  let e1 ← tfExpandDimsShape 2 x1
  let e2 ← tfExpandDimsShape 4 e1
  let convR ← tfConv2dShape e2 [1, kernelSize, 1, nScales] stride
  let convI ← tfConv2dShape e2 [1, kernelSize, 1, nScales] stride
  let outR ← tfCropIndexShape crop convR
  let outI ← tfCropIndexShape crop convI
  let scal ← if outputformat = "magnitude" then Except.ok outR
             else if outputformat = "phase" then Except.ok outR
             else tfConcatAxis1Shape outR outI
  if dataFormat = "channels_last"
  then tfTransposeShape [0, 2, 3, 1] scal
  else Except.ok scal

/-! ### Constructor validation (cwt.py lines 161-169) -/

def validOutputs : List String := ["complex", "magnitude", "phase"]

def validDataFormats : List String := ["channels_last", "channels_first"]

/-- The explicit checks performed by ComplexMorletCWT.__init__ (lines
161-169), in source order; an error models the raised ValueError. -/
noncomputable def cmorletCheck (lowerFreq upperFreq : ℝ)
    (output dataFormat : String) : Except String Unit :=
  if lowerFreq > upperFreq then
    Except.error "lower_freq should be lower than upper_freq"
  else if lowerFreq < 0 then
    Except.error "Expected positive lower_freq."
  else if output ∉ validOutputs then
    Except.error "Expected output to be complex, magnitude or phase"
  else if dataFormat ∉ validDataFormats then
    Except.error "Expected data format to be channels_last or channels_first"
  else Except.ok ()

/-- The set of configurations the specification says must be rejected at
construction: this is the condition stated by the spec, not the code. -/
def specInvalidConfig (lowerFreq upperFreq fs waveletWidth : ℝ) (nScales : ℕ)
    (output dataFormat : String) : Prop :=
  lowerFreq ≥ upperFreq ∨ lowerFreq ≤ 0 ∨ output ∉ validOutputs ∨
    dataFormat ∉ validDataFormats ∨ nScales < 2 ∨ fs ≤ 0 ∨ waveletWidth ≤ 0

/-! ### Scale and frequency generation (cwt.py lines 179-186) -/

/-- Initial scale s_0 = 1 / upper_freq (line 180). -/
noncomputable def sZero (upperFreq : ℝ) : ℝ := 1 / upperFreq

/-- Last scale s_n = 1 / lower_freq (line 181). -/
noncomputable def sLast (lowerFreq : ℝ) : ℝ := 1 / lowerFreq

/-- Geometric ratio base = (s_n / s_0) ** (1 / (n_scales - 1)) (line 183);
the Python exponent 1 / (n_scales - 1) is float division. -/
noncomputable def scaleBase (lowerFreq upperFreq : ℝ) (nScales : ℕ) : ℝ :=
  (sLast lowerFreq / sZero upperFreq) ^ ((1 : ℝ) / ((nScales : ℝ) - 1))

/-- scales[i] = s_0 * base ** i (line 184). -/
noncomputable def cmorletScale (lowerFreq upperFreq : ℝ) (nScales i : ℕ) : ℝ :=
  sZero upperFreq * scaleBase lowerFreq upperFreq nScales ^ i

/-- frequencies[i] = 1 / scales[i] (line 186). -/
noncomputable def cmorletFreq (lowerFreq upperFreq : ℝ) (nScales i : ℕ) : ℝ :=
  1 / cmorletScale lowerFreq upperFreq nScales i

theorem scaleBase_gt_one {lo up : ℝ} {n : ℕ} (hlo : 0 < lo) (hup : lo < up)
    (hn : 2 ≤ n) : 1 < scaleBase lo up n := by
  have hup0 : 0 < up := hlo.trans hup
  have hratio : 1 < sLast lo / sZero up := by
    unfold sLast sZero
    have heq : (1 / lo) / (1 / up) = up / lo := by
      field_simp
    rw [heq]
    exact (one_lt_div hlo).mpr hup
  have hexp : 0 < (1 : ℝ) / ((n : ℝ) - 1) := by
    have : (1 : ℝ) ≤ (n : ℝ) - 1 := by
      have : (2 : ℝ) ≤ (n : ℝ) := by exact_mod_cast hn
      linarith
    positivity
  unfold scaleBase
  rw [Real.one_lt_rpow_iff_of_pos (by linarith)]
  exact Or.inl ⟨hratio, hexp⟩

theorem cmorletScale_pos {lo up : ℝ} {n : ℕ} (hlo : 0 < lo) (hup : lo < up)
    (hn : 2 ≤ n) (i : ℕ) : 0 < cmorletScale lo up n i := by
  have hup0 : 0 < up := hlo.trans hup
  have hbase : 0 < scaleBase lo up n := lt_trans one_pos (scaleBase_gt_one hlo hup hn)
  unfold cmorletScale sZero
  positivity


theorem scaleBase_pow_last {lo up : ℝ} {n : ℕ} (hlo : 0 < lo) (hup : lo < up)
    (hn : 2 ≤ n) : scaleBase lo up n ^ (n - 1) = sLast lo / sZero up := by
  have hup0 : 0 < up := hlo.trans hup
  have hx : 0 < sLast lo / sZero up := by
    unfold sLast sZero
    positivity
  have hcast : ((n - 1 : ℕ) : ℝ) = (n : ℝ) - 1 := by
    have h1 : 1 ≤ n := le_trans (by norm_num) hn
    push_cast [Nat.cast_sub h1]
    ring
  have hne : (n : ℝ) - 1 ≠ 0 := by
    have : (2 : ℝ) ≤ (n : ℝ) := by exact_mod_cast hn
    intro h
    linarith
  unfold scaleBase
  rw [← Real.rpow_natCast ((sLast lo / sZero up) ^ ((1 : ℝ) / ((n : ℝ) - 1))) (n - 1),
    ← Real.rpow_mul hx.le, hcast, one_div, inv_mul_cancel₀ hne, Real.rpow_one]

/-- Claim C4: scale generation computes s0 = 1/upper_freq, sn = 1/lower_freq,
base = (sn/s0)^(1/(n_scales-1)), scale[i] = s0 * base^i, frequency[i] =
1/scale[i]; the scales are strictly increasing, the frequencies strictly
decreasing, frequencies[0] = upper_freq and frequencies[n-1] = lower_freq
(exactly, in the real-number model), and the concrete configuration
lower_freq = 1, upper_freq = 25, n_scales = 3 gives scales (1/25, 1/5, 1)
and frequencies (25, 5, 1). -/
theorem C4_scale_generation (lo up : ℝ) (n : ℕ)
    (hlo : 0 < lo) (hup : lo < up) (hn : 2 ≤ n) :
    (∀ i j, i < j → j < n →
      cmorletScale lo up n i < cmorletScale lo up n j) ∧
    (∀ i j, i < j → j < n →
      cmorletFreq lo up n j < cmorletFreq lo up n i) ∧
    cmorletFreq lo up n 0 = up ∧
    cmorletFreq lo up n (n - 1) = lo ∧
    (cmorletScale 1 25 3 0 = 1 / 25 ∧ cmorletScale 1 25 3 1 = 1 / 5 ∧
     cmorletScale 1 25 3 2 = 1 ∧ cmorletFreq 1 25 3 0 = 25 ∧
     cmorletFreq 1 25 3 1 = 5 ∧ cmorletFreq 1 25 3 2 = 1) := by
  have hup0 : 0 < up := hlo.trans hup
  have hbase : 1 < scaleBase lo up n := scaleBase_gt_one hlo hup hn
  have hs0 : 0 < sZero up := by unfold sZero; positivity
  have hmono : ∀ i j, i < j → j < n →
      cmorletScale lo up n i < cmorletScale lo up n j := by
    intro i j hij _
    unfold cmorletScale
    exact mul_lt_mul_of_pos_left (pow_lt_pow_right₀ hbase hij) hs0
  have hbase3 : scaleBase 1 25 3 = 5 := by
    have h1 : sLast 1 / sZero 25 = 25 := by
      unfold sLast sZero
      norm_num
    have h2 : (1 : ℝ) / ((3 : ℕ) - 1 : ℝ) = 1 / 2 := by norm_num
    unfold scaleBase
    rw [h1, h2, show (25 : ℝ) = 5 ^ (2 : ℕ) by norm_num,
      ← Real.rpow_natCast 5 2, ← Real.rpow_mul (by norm_num : (0 : ℝ) ≤ 5)]
    norm_num
  have hlast : cmorletScale lo up n (n - 1) = sLast lo := by
    unfold cmorletScale
    rw [scaleBase_pow_last hlo hup hn]
    unfold sLast sZero
    field_simp
  refine ⟨hmono, ?_, ?_, ?_, ?_⟩
  · intro i j hij hjn
    unfold cmorletFreq
    exact one_div_lt_one_div_of_lt
      (cmorletScale_pos hlo hup hn i) (hmono i j hij hjn)
  · unfold cmorletFreq cmorletScale sZero
    rw [pow_zero, mul_one, one_div_one_div]
  · unfold cmorletFreq
    rw [hlast]
    unfold sLast
    rw [one_div_one_div]
  · refine ⟨?_, ?_, ?_, ?_, ?_, ?_⟩ <;>
      simp only [cmorletFreq, cmorletScale, hbase3, sZero] <;> norm_num

/-- Closed witness for C4 at the concrete configuration of the spec. -/
theorem C4_scale_generation_witness :
    ((0 : ℝ) < 1 ∧ (1 : ℝ) < 25 ∧ 2 ≤ 3) ∧ cmorletFreq 1 25 3 (3 - 1) = 1 :=
  ⟨by norm_num,
   (C4_scale_generation 1 25 3 (by norm_num) (by norm_num)
     (by norm_num)).2.2.2.1⟩

/-- Claim C8 counterexample: the configuration lower_freq = upper_freq = 1
(with fs = 1, wavelet_width = 1, n_scales = 3, valid mode strings) is in
the rejection set stated by the claim, yet the constructor checks of
cwt.py lines 161-169 accept it without raising. -/
theorem C8_counterexample :
    specInvalidConfig 1 1 1 1 3 "complex" "channels_last" ∧
    cmorletCheck 1 1 "complex" "channels_last" = Except.ok () := by
  constructor
  · exact Or.inl (le_refl (1 : ℝ))
  · unfold cmorletCheck
    rw [if_neg (by norm_num), if_neg (by norm_num),
      if_neg (by simp [validOutputs]), if_neg (by simp [validDataFormats])]

/-- Claim C8 amended: the constructor validation accepts exactly when
lower_freq ≤ upper_freq, lower_freq ≥ 0 and both mode strings are
recognized; it takes no account of fs, wavelet_width or n_scales, and the
boundary case lower_freq = upper_freq is accepted. -/
theorem C8_construction_checks (lo up : ℝ) (o d : String) :
    cmorletCheck lo up o d = Except.ok () ↔
      (lo ≤ up ∧ 0 ≤ lo ∧ o ∈ validOutputs ∧ d ∈ validDataFormats) := by
  unfold cmorletCheck
  by_cases h1 : lo > up
  · rw [if_pos h1]
    simp only [reduceCtorEq, false_iff]
    intro hc
    exact absurd hc.1 (not_le.mpr h1)
  · rw [if_neg h1]
    by_cases h2 : lo < 0
    · rw [if_pos h2]
      simp only [reduceCtorEq, false_iff]
      intro hc
      exact absurd hc.2.1 (not_le.mpr h2)
    · rw [if_neg h2]
      by_cases h3 : o ∉ validOutputs
      · rw [if_pos h3]
        simp only [reduceCtorEq, false_iff]
        intro hc
        exact absurd hc.2.2.1 h3
      · rw [if_neg h3]
        by_cases h4 : d ∉ validDataFormats
        · rw [if_pos h4]
          simp only [reduceCtorEq, false_iff]
          intro hc
          exact absurd hc.2.2.2 h4
        · rw [if_neg h4]
          simp only [true_iff]
          exact ⟨not_lt.mp h1, not_lt.mp h2, not_not.mp h3, not_not.mp h4⟩

/-- Claim C9 counterexample: a channels_first input of rank 4 (time-series
rank is 3), hence incompatible with the configured layout, is not rejected
by the call pipeline: every backend operation accepts it (the extra axis is
silently treated as a batch dimension by conv2d) and a result shape is
produced. -/
theorem C9_counterexample :
    ([2, 3, 4, 1] : List ℕ).length ≠ 3 ∧
    cwtCallShape "channels_first" "complex" 1 0 2 3 [2, 3, 4, 1] =
      Except.ok [2, 6, 4, 1, 2] := by
  constructor
  · decide
  · rfl

theorem exceptBind_ok {ε α β : Type} (a : α) (f : α → Except ε β) :
    (do let x ← (Except.ok a : Except ε α); f x) = f a := rfl

theorem exceptBind_error {ε α β : Type} (e : ε) (f : α → Except ε β) :
    (do let x ← (Except.error e : Except ε α); f x) =
      (Except.error e : Except ε β) := rfl

/-- Claim C9 amended: the call performs no explicit validation; failures
are those of the backend shape contracts.  For channels_last, the call
fails (in the initial transpose) exactly when the input rank differs
from 3, before any result is produced; for channels_first, inputs of rank
below 3 fail in the backend, rank-3 inputs are processed, but some
higher-rank inputs are not rejected (see the counterexample). -/
theorem C9_call_shape_errors (mode : String)
    (stride borderCrop nScales kernelSize : ℕ) (sh : List ℕ) :
    ((∃ out, cwtCallShape "channels_last" mode stride borderCrop
        nScales kernelSize sh = Except.ok out) ↔ sh.length = 3) ∧
    (sh.length < 3 → ∃ e, cwtCallShape "channels_first" mode stride
        borderCrop nScales kernelSize sh = Except.error e) ∧
    (sh.length = 3 → ∃ out, cwtCallShape "channels_first" mode stride
        borderCrop nScales kernelSize sh = Except.ok out) := by
  refine ⟨⟨?_, ?_⟩, ?_, ?_⟩
  · rintro ⟨out, hout⟩
    by_contra hlen
    have herr : cwtCallShape "channels_last" mode stride borderCrop
        nScales kernelSize sh =
        Except.error "transpose permutation length does not match rank" := by
      have h3 : ¬(3 = sh.length) := by omega
      simp [cwtCallShape, tfTransposeShape, h3, exceptBind_error]
    rw [herr] at hout
    exact Except.noConfusion hout
  · intro h
    obtain ⟨a, b, c, rfl⟩ := List.length_eq_three.mp h
    by_cases hm : mode = "magnitude"
    · exact ⟨_, by simp [cwtCallShape, tfTransposeShape, tfExpandDimsShape, exceptBind_ok,
        tfConv2dShape, tfCropIndexShape, tfConcatAxis1Shape, hm, sameOutLen]; rfl⟩
    · by_cases hp : mode = "phase"
      · exact ⟨_, by simp [cwtCallShape, tfTransposeShape, tfExpandDimsShape, exceptBind_ok,
          tfConv2dShape, tfCropIndexShape, tfConcatAxis1Shape, hm, hp, sameOutLen]; rfl⟩
      · exact ⟨_, by simp [cwtCallShape, tfTransposeShape, tfExpandDimsShape, exceptBind_ok,
          tfConv2dShape, tfCropIndexShape, tfConcatAxis1Shape, hm, hp, sameOutLen]; rfl⟩
  · intro h
    match sh, h with
    | [], _ =>
      exact ⟨_, by simp [cwtCallShape, tfExpandDimsShape, exceptBind_ok, exceptBind_error]; rfl⟩
    | [a], _ =>
      exact ⟨_, by simp [cwtCallShape, tfExpandDimsShape, exceptBind_ok, exceptBind_error]; rfl⟩
    | [a, b], _ =>
      exact ⟨_, by simp [cwtCallShape, tfExpandDimsShape, exceptBind_ok, exceptBind_error]; rfl⟩
  · intro h
    obtain ⟨a, b, c, rfl⟩ := List.length_eq_three.mp h
    by_cases hm : mode = "magnitude"
    · exact ⟨_, by simp [cwtCallShape, tfExpandDimsShape, exceptBind_ok,
        tfConv2dShape, tfCropIndexShape, tfConcatAxis1Shape, hm, sameOutLen]; rfl⟩
    · by_cases hp : mode = "phase"
      · exact ⟨_, by simp [cwtCallShape, tfExpandDimsShape, exceptBind_ok,
          tfConv2dShape, tfCropIndexShape, tfConcatAxis1Shape, hm, hp, sameOutLen]; rfl⟩
      · exact ⟨_, by simp [cwtCallShape, tfExpandDimsShape, exceptBind_ok,
          tfConv2dShape, tfCropIndexShape, tfConcatAxis1Shape, hm, hp, sameOutLen]; rfl⟩

/-- Closed witness for the amended C9 statement: a rank-0 channels_first
input and a rank-3 channels_last input, at a concrete configuration. -/
theorem C9_call_shape_errors_witness :
    (([] : List ℕ).length < 3 ∧ ∃ e, cwtCallShape "channels_first" "complex"
      1 0 2 3 [] = Except.error e) ∧
    (([1, 8, 1] : List ℕ).length = 3 ∧ ∃ out, cwtCallShape "channels_last"
      "complex" 1 0 2 3 [1, 8, 1] = Except.ok out) :=
  ⟨⟨by decide, (C9_call_shape_errors "complex" 1 0 2 3 []).2.1 (by decide)⟩,
   ⟨by decide, (C9_call_shape_errors "complex" 1 0 2 3 [1, 8, 1]).1.mpr
     (by decide)⟩⟩

/-! ### Wavelet bank synthesis (cwt.py lines 195-227) -/

/-- Python int() conversion: truncation toward zero. -/
noncomputable def pyInt (x : ℝ) : ℤ := if 0 ≤ x then ⌊x⌋ else ⌈x⌉

/-- The numpy reduction scales.max() on line 200; the scale lists produced
at construction are nonempty with positive entries, for which folding max
from 0 agrees with the numpy maximum. -/
noncomputable def listMax (l : List ℝ) : ℝ := l.foldr max 0

/-- truncation_size = scales.max() * sqrt(4.5 * initial_wavelet_width) * fs
(line 200): the support heuristic uses the initial width. -/
noncomputable def truncationSize (scales : List ℝ) (wInit fs : ℝ) : ℝ :=
  listMax scales * Real.sqrt (4.5 * wInit) * fs

/-- one_side = int(size_factor * truncation_size) (line 201). -/
noncomputable def morletOneSide (scales : List ℝ) (wInit fs sizeFactor : ℝ) : ℤ :=
  pyInt (sizeFactor * truncationSize scales wInit fs)

/-- kernel_size = 2 * one_side + 1 (line 202). -/
noncomputable def morletKernelSize (scales : List ℝ) (wInit fs sizeFactor : ℝ) : ℤ :=
  2 * morletOneSide scales wInit fs sizeFactor + 1

/-- scaled_t at array position j: t_array[j] / scale with
t_array[j] = (j - one_side) / fs (lines 203-204 and 210). -/
noncomputable def scaledT (fs s : ℝ) (os j : ℤ) : ℝ :=
  (((j : ℝ) - (os : ℝ)) / fs) / s

/-- kernel_real at position j for scale s (lines 209-213): Gaussian
envelope divided by the norm constant, times cos(2 pi scaled_t); the
envelope and norm use the current wavelet width w. -/
noncomputable def morletRealTapAt (w fs s : ℝ) (os j : ℤ) : ℝ :=
  Real.exp (-(scaledT fs s os j ^ 2) / w) /
    (Real.sqrt (Real.pi * w) * s * fs / 2) *
    Real.cos (2 * Real.pi * scaledT fs s os j)

/-- kernel_imag at position j for scale s (lines 209-214). -/
noncomputable def morletImagTapAt (w fs s : ℝ) (os j : ℤ) : ℝ :=
  Real.exp (-(scaledT fs s os j ^ 2) / w) /
    (Real.sqrt (Real.pi * w) * s * fs / 2) *
    Real.sin (2 * Real.pi * scaledT fs s os j)

/-- Real part of the bank: column i holds the wavelet for scales[i]
(loop on line 208, stacked on line 218); positions j range over
0 .. kernel_size - 1. -/
noncomputable def morletBankReal (scales : List ℝ) (wInit w fs sizeFactor : ℝ)
    (j : ℤ) (i : ℕ) : ℝ :=
  morletRealTapAt w fs (scales.getD i 0)
    (morletOneSide scales wInit fs sizeFactor) j

/-- Imaginary part of the bank (line 219). -/
noncomputable def morletBankImag (scales : List ℝ) (wInit w fs sizeFactor : ℝ)
    (j : ℤ) (i : ℕ) : ℝ :=
  morletImagTapAt w fs (scales.getD i 0)
    (morletOneSide scales wInit fs sizeFactor) j

/-- Tap value stated by the spec (section 4.2) for tap index
k in [-one_side, one_side]: base * cos(2 pi (t/s)) with t = k / fs,
norm = sqrt(pi * wavelet_width) * s * fs / 2 and
envelope = exp(-(t/s)^2 / wavelet_width), at the current width. -/
noncomputable def specRealTap (w fs s : ℝ) (k : ℤ) : ℝ :=
  Real.exp (-((((k : ℝ) / fs) / s) ^ 2) / w) /
    (Real.sqrt (Real.pi * w) * s * fs / 2) *
    Real.cos (2 * Real.pi * (((k : ℝ) / fs) / s))

/-- Imaginary tap value stated by the spec: base * sin(2 pi (t/s)). -/
noncomputable def specImagTap (w fs s : ℝ) (k : ℤ) : ℝ :=
  Real.exp (-((((k : ℝ) / fs) / s) ^ 2) / w) /
    (Real.sqrt (Real.pi * w) * s * fs / 2) *
    Real.sin (2 * Real.pi * (((k : ℝ) / fs) / s))

theorem scaledT_add (fs s : ℝ) (os k : ℤ) :
    scaledT fs s os (os + k) = ((k : ℝ) / fs) / s := by
  unfold scaledT
  push_cast
  ring

theorem scaledT_sub (fs s : ℝ) (os k : ℤ) :
    scaledT fs s os (os - k) = -(((k : ℝ) / fs) / s) := by
  unfold scaledT
  push_cast
  ring

theorem scaledT_center (fs s : ℝ) (os : ℤ) : scaledT fs s os os = 0 := by
  unfold scaledT
  simp

theorem morletOneSide_nonneg (scales : List ℝ) (wInit fs sizeFactor : ℝ)
    (h : 0 ≤ sizeFactor * truncationSize scales wInit fs) :
    0 ≤ morletOneSide scales wInit fs sizeFactor := by
  unfold morletOneSide pyInt
  rw [if_pos h]
  exact Int.floor_nonneg.mpr h

theorem morletBankImag_center (scales : List ℝ) (wInit w fs sizeFactor : ℝ)
    (i : ℕ) :
    morletBankImag scales wInit w fs sizeFactor
      (morletOneSide scales wInit fs sizeFactor) i = 0 := by
  unfold morletBankImag morletImagTapAt
  rw [scaledT_center]
  simp

theorem morletBankReal_center (scales : List ℝ) (wInit w fs sizeFactor : ℝ)
    (i : ℕ) :
    morletBankReal scales wInit w fs sizeFactor
      (morletOneSide scales wInit fs sizeFactor) i =
      2 / (Real.sqrt (Real.pi * w) * scales.getD i 0 * fs) := by
  unfold morletBankReal morletRealTapAt
  rw [scaledT_center]
  rw [show (0 : ℝ) ^ 2 = 0 by norm_num, neg_zero, zero_div, Real.exp_zero,
    mul_zero, Real.cos_zero, mul_one]
  rw [one_div_div]

/-! ### Layer state (cwt.py lines 13-31 and 171-193)

ContinuousWaveletTransform.__init__ (line 31) computes the wavelet bank
once, eagerly, and stores it in self.real_part / self.imaginary_part; at
that moment the wavelet-width variable holds its initial value.  call
(line 71) convolves with the stored bank.  Assigning the tf.Variable
self.wavelet_width later changes only the variable, not the stored
tensors. -/

structure MorletLayer where
  initialWaveletWidth : ℝ
  fs : ℝ
  lowerFreq : ℝ
  upperFreq : ℝ
  sizeFactor : ℝ
  scalesList : List ℝ
  waveletWidth : ℝ
  realPart : ℤ → ℕ → ℝ
  imagPart : ℤ → ℕ → ℝ
  borderCrop : ℕ
  stride : ℕ
  outputformat : String
  dataFormat : String

/-- ComplexMorletCWT.__init__: scales from the frequency range (lines
179-186), wavelet-width variable initialised to the given width (line
188), bank built once by the base constructor (line 31) while the
variable still holds the initial width. -/
noncomputable def initMorletLayer (waveletWidth fs lowerFreq upperFreq : ℝ)
    (nScales : ℕ) (sizeFactor : ℝ) (borderCrop stride : ℕ)
    (output dataFormat : String) : MorletLayer :=
  let scales := (List.range nScales).map (cmorletScale lowerFreq upperFreq nScales)
  { initialWaveletWidth := waveletWidth
    fs := fs
    lowerFreq := lowerFreq
    upperFreq := upperFreq
    sizeFactor := sizeFactor
    scalesList := scales
    waveletWidth := waveletWidth
    realPart := fun j i => morletBankReal scales waveletWidth waveletWidth fs sizeFactor j i
    imagPart := fun j i => morletBankImag scales waveletWidth waveletWidth fs sizeFactor j i
    borderCrop := borderCrop
    stride := stride
    outputformat := output
    dataFormat := dataFormat }

/-- Assignment to the tf.Variable self.wavelet_width by an external
optimizer: only the variable changes; the tensors stored at construction
are untouched. -/
def assignWaveletWidth (L : MorletLayer) (w : ℝ) : MorletLayer :=
  { L with waveletWidth := w }

/-- The real filter bank that call uses: the stored self.real_part
(cwt.py line 71). -/
def layerCallBankReal (L : MorletLayer) : ℤ → ℕ → ℝ := L.realPart

/-- The imaginary filter bank that call negates and uses (line 74). -/
def layerCallBankImag (L : MorletLayer) : ℤ → ℕ → ℝ := L.imagPart

/-- Kernel size the layer would use when (re)building its bank. -/
noncomputable def layerKernelSize (L : MorletLayer) : ℤ :=
  morletKernelSize L.scalesList L.initialWaveletWidth L.fs L.sizeFactor

theorem listMax_single : listMax [(1 : ℝ)] = 1 := by
  unfold listMax
  simp

theorem truncOne_nonneg : 0 ≤ (1 : ℝ) * truncationSize [1] 1 1 := by
  unfold truncationSize
  rw [listMax_single]
  positivity

theorem osOne_nonneg : (0 : ℤ) ≤ morletOneSide [1] 1 1 1 :=
  morletOneSide_nonneg [1] 1 1 1 truncOne_nonneg

/-- Claim C2: at every scale s of the scale set and every tap index k in
[-one_side, one_side], the built bank equals the spec formula
real[k,s] = (exp(-(t/s)^2 / w) / (sqrt(pi w) * s * fs / 2)) * cos(2 pi t/s)
and imag[k,s] = same base * sin(2 pi t/s) with t = k / fs, where w is the
current wavelet width (the right side does not mention the initial width,
which only fixes the support through one_side). -/
theorem C2_bank_formula (scales : List ℝ) (wInit w fs sizeFactor : ℝ)
    (i : ℕ) (hi : i < scales.length) (k : ℤ)
    (hk1 : -morletOneSide scales wInit fs sizeFactor ≤ k)
    (hk2 : k ≤ morletOneSide scales wInit fs sizeFactor) :
    morletBankReal scales wInit w fs sizeFactor
        (morletOneSide scales wInit fs sizeFactor + k) i =
      specRealTap w fs (scales.getD i 0) k ∧
    morletBankImag scales wInit w fs sizeFactor
        (morletOneSide scales wInit fs sizeFactor + k) i =
      specImagTap w fs (scales.getD i 0) k := by
  unfold morletBankReal morletBankImag morletRealTapAt morletImagTapAt
    specRealTap specImagTap
  rw [scaledT_add]
  exact ⟨rfl, rfl⟩

/-- Closed witness for C2 at scales = [1], unit parameters, center tap. -/
theorem C2_bank_formula_witness :
    (0 < ([(1 : ℝ)] : List ℝ).length ∧ -morletOneSide [1] 1 1 1 ≤ (0 : ℤ) ∧
      (0 : ℤ) ≤ morletOneSide [1] 1 1 1) ∧
    morletBankReal [1] 1 1 1 1 (morletOneSide [1] 1 1 1 + 0) 0 =
      specRealTap 1 1 (([(1 : ℝ)] : List ℝ).getD 0 0) 0 :=
  ⟨⟨by norm_num, neg_nonpos.mpr osOne_nonneg, osOne_nonneg⟩,
   (C2_bank_formula [1] 1 1 1 1 0 (by norm_num) 0
     (neg_nonpos.mpr osOne_nonneg) osOne_nonneg).1⟩

/-- Claim C3: the support comes from truncation = max(scales) *
sqrt(4.5 * initial_wavelet_width) * fs with the initial width,
one_side = floor(size_factor * truncation), kernel_size = 2*one_side + 1,
which is odd; and the kernel size of a layer is unchanged by any later
mutation of the wavelet-width variable. -/
theorem C3_kernel_sizing (scales : List ℝ) (wInit fs sizeFactor : ℝ)
    (L : MorletLayer) (w : ℝ)
    (h : 0 ≤ sizeFactor * truncationSize scales wInit fs) :
    truncationSize scales wInit fs =
      listMax scales * Real.sqrt (4.5 * wInit) * fs ∧
    morletOneSide scales wInit fs sizeFactor =
      ⌊sizeFactor * truncationSize scales wInit fs⌋ ∧
    morletKernelSize scales wInit fs sizeFactor =
      2 * morletOneSide scales wInit fs sizeFactor + 1 ∧
    Odd (morletKernelSize scales wInit fs sizeFactor) ∧
    layerKernelSize (assignWaveletWidth L w) = layerKernelSize L := by
  refine ⟨rfl, ?_, rfl,
    ⟨morletOneSide scales wInit fs sizeFactor, by
      unfold morletKernelSize
      ring⟩, rfl⟩
  unfold morletOneSide pyInt
  rw [if_pos h]

/-- Closed witness for C3 at scales = [1] and unit parameters. -/
theorem C3_kernel_sizing_witness :
    (0 : ℝ) ≤ 1 * truncationSize [1] 1 1 ∧ Odd (morletKernelSize [1] 1 1 1) :=
  ⟨truncOne_nonneg,
   (C3_kernel_sizing [1] 1 1 1
     (initMorletLayer 1 1 1 2 2 1 0 1 "complex" "channels_last") 5
     truncOne_nonneg).2.2.2.1⟩

/-- Claim C7: in every scale column of the built bank the real part is an
even function of the tap index about the center tap and the imaginary part
is odd about the center: real[center+k] = real[center-k] and
imag[center+k] = -imag[center-k] for all k in [0, one_side]. -/
theorem C7_bank_symmetry (scales : List ℝ) (wInit w fs sizeFactor : ℝ)
    (i : ℕ) (k : ℕ) (hk : (k : ℤ) ≤ morletOneSide scales wInit fs sizeFactor) :
    morletBankReal scales wInit w fs sizeFactor
        (morletOneSide scales wInit fs sizeFactor + k) i =
      morletBankReal scales wInit w fs sizeFactor
        (morletOneSide scales wInit fs sizeFactor - k) i ∧
    morletBankImag scales wInit w fs sizeFactor
        (morletOneSide scales wInit fs sizeFactor + k) i =
      -morletBankImag scales wInit w fs sizeFactor
        (morletOneSide scales wInit fs sizeFactor - k) i := by
  unfold morletBankReal morletBankImag morletRealTapAt morletImagTapAt
  rw [scaledT_add, scaledT_sub]
  constructor <;> simp [neg_sq, mul_neg, Real.cos_neg, Real.sin_neg]

/-- Closed witness for C7 at scales = [1], unit parameters, k = 0. -/
theorem C7_bank_symmetry_witness :
    (((0 : ℕ) : ℤ) ≤ morletOneSide [1] 1 1 1) ∧
    morletBankReal [1] 1 1 1 1 (morletOneSide [1] 1 1 1 + (0 : ℕ)) 0 =
      morletBankReal [1] 1 1 1 1 (morletOneSide [1] 1 1 1 - (0 : ℕ)) 0 :=
  ⟨by exact_mod_cast osOne_nonneg,
   (C7_bank_symmetry [1] 1 1 1 1 0 0 (by exact_mod_cast osOne_nonneg)).1⟩

/-- Claim C10: at the center tap (tap index k = 0) the imaginary part is
exactly zero and the real part equals 1/norm = 2 / (sqrt(pi * w) * scale *
fs), which is strictly positive for positive w, scale and fs. -/
theorem C10_center_tap (scales : List ℝ) (wInit w fs sizeFactor : ℝ) (i : ℕ)
    (hw : 0 < w) (hs : 0 < scales.getD i 0) (hfs : 0 < fs) :
    morletBankImag scales wInit w fs sizeFactor
      (morletOneSide scales wInit fs sizeFactor) i = 0 ∧
    morletBankReal scales wInit w fs sizeFactor
      (morletOneSide scales wInit fs sizeFactor) i =
      2 / (Real.sqrt (Real.pi * w) * scales.getD i 0 * fs) ∧
    0 < morletBankReal scales wInit w fs sizeFactor
      (morletOneSide scales wInit fs sizeFactor) i := by
  refine ⟨morletBankImag_center scales wInit w fs sizeFactor i,
    morletBankReal_center scales wInit w fs sizeFactor i, ?_⟩
  rw [morletBankReal_center]
  have hsq : 0 < Real.sqrt (Real.pi * w) := Real.sqrt_pos.mpr (by positivity)
  positivity

/-- Closed witness for C10 at scales = [1] and unit parameters. -/
theorem C10_center_tap_witness :
    ((0 : ℝ) < 1 ∧ (0 : ℝ) < ([(1 : ℝ)] : List ℝ).getD 0 0) ∧
    morletBankImag [1] 1 1 1 1 (morletOneSide [1] 1 1 1) 0 = 0 :=
  ⟨⟨by norm_num, by norm_num⟩,
   (C10_center_tap [1] 1 1 1 1 0 (by norm_num) (by norm_num)
     (by norm_num)).1⟩

theorem c1_scale_value :
    (((List.range 2).map (cmorletScale 1 2 2)).getD 1 0 : ℝ) = 1 := by
  have hbase : scaleBase 1 2 2 = 2 := by
    unfold scaleBase sLast sZero
    rw [show (1 : ℝ) / (((2 : ℕ) : ℝ) - 1) = 1 by norm_num, Real.rpow_one]
    norm_num
  have hget : (((List.range 2).map (cmorletScale 1 2 2)).getD 1 0 : ℝ) =
      cmorletScale 1 2 2 1 := rfl
  rw [hget]
  unfold cmorletScale sZero
  rw [hbase]
  norm_num

/-- Claim C1 (refuted by the code): the bank used by call is the one stored
by the constructor; assigning a new value to the wavelet-width variable
afterwards leaves it untouched, so a call after the mutation still uses the
bank built from the initial width, which differs (already at the center tap
of the scale-1 column) from the bank the current width would produce.
Concretely: a layer built with wavelet_width 1 (fs = 1, lower_freq = 1,
upper_freq = 2, n_scales = 2), mutated to width 2. -/
theorem C1_bank_frozen_after_mutation :
    layerCallBankReal
        (assignWaveletWidth
          (initMorletLayer 1 1 1 2 2 1 0 1 "complex" "channels_last") 2) =
      layerCallBankReal
        (initMorletLayer 1 1 1 2 2 1 0 1 "complex" "channels_last") ∧
    (assignWaveletWidth
        (initMorletLayer 1 1 1 2 2 1 0 1 "complex" "channels_last")
        2).waveletWidth = 2 ∧
    layerCallBankReal
        (assignWaveletWidth
          (initMorletLayer 1 1 1 2 2 1 0 1 "complex" "channels_last") 2)
        (morletOneSide ((List.range 2).map (cmorletScale 1 2 2)) 1 1 1) 1 ≠
      morletBankReal ((List.range 2).map (cmorletScale 1 2 2)) 1 2 1 1
        (morletOneSide ((List.range 2).map (cmorletScale 1 2 2)) 1 1 1) 1 := by
  refine ⟨rfl, rfl, ?_⟩
  show morletBankReal ((List.range 2).map (cmorletScale 1 2 2)) 1 1 1 1
      (morletOneSide ((List.range 2).map (cmorletScale 1 2 2)) 1 1 1) 1 ≠
    morletBankReal ((List.range 2).map (cmorletScale 1 2 2)) 1 2 1 1
      (morletOneSide ((List.range 2).map (cmorletScale 1 2 2)) 1 1 1) 1
  rw [morletBankReal_center, morletBankReal_center, c1_scale_value]
  simp only [mul_one]
  have h1 : Real.sqrt Real.pi < Real.sqrt (Real.pi * 2) :=
    Real.sqrt_lt_sqrt (by positivity) (by linarith [Real.pi_pos])
  have h2 : 0 < Real.sqrt Real.pi :=
    Real.sqrt_pos.mpr (by positivity)
  exact ne_of_gt (div_lt_div_of_pos_left (by norm_num) h2 h1)

/-! ### Value-level call pipeline (cwt.py lines 41-91) -/

/-- Configuration and stored bank of the layer as read by call; the bank
arrays have kernelSize taps and one column per scale. -/
structure CWTConfig where
  borderCrop : ℕ
  stride : ℕ
  outputformat : String
  dataFormat : String
  kernelSize : ℕ
  bankReal : ℕ → ℕ → ℝ
  bankImag : ℕ → ℕ → ℝ

/-- A rank-3 input batch with time extent timeIn: val b t c for
channels_last, val b c t for channels_first. -/
structure InputT where
  batch : ℕ
  timeIn : ℕ
  channels : ℕ
  val : ℕ → ℕ → ℕ → ℝ

/-- The channels-first view produced by the transpose on line 64 (identity
when the input is already channels_first). -/
def chanFirstVal (cfg : CWTConfig) (x : InputT) : ℕ → ℕ → ℕ → ℝ :=
  fun b c t =>
    if cfg.dataFormat = "channels_last" then x.val b t c else x.val b c t

/-- Zero-padded read of a channel row: position pos of the SAME-padded
series, 0 outside the original extent. -/
def padRead (f : ℕ → ℝ) (inLen padLeft pos : ℕ) : ℝ :=
  if padLeft ≤ pos ∧ pos - padLeft < inLen then f (pos - padLeft) else 0

/-- One output sample of the SAME-padded strided cross-correlation that
tf.nn.conv2d performs along the time axis (lines 70-75): output sample j is
the sum over filter taps k of input(j*stride + k - padLeft) * w(k). -/
noncomputable def convSameAt (f : ℕ → ℝ) (inLen kernel stride : ℕ)
    (w : ℕ → ℝ) (j : ℕ) : ℝ :=
  ∑ k ∈ Finset.range kernel,
    padRead f inLen (samePadLeft inLen kernel stride) (j * stride + k) * w k

/-- Real response of one (batch, channel) row: the time list (length
ceil(timeIn / stride), SAME padding) of scale-indexed convolution samples
against the stored real bank (lines 70-72). -/
noncomputable def convColReal (cfg : CWTConfig) (x : InputT) (b c : ℕ) :
    List (ℕ → ℝ) :=
  (List.range (sameOutLen x.timeIn cfg.stride)).map
    (fun j s => convSameAt (chanFirstVal cfg x b c) x.timeIn cfg.kernelSize
      cfg.stride (fun k => cfg.bankReal k s) j)

/-- Imaginary response: call hands the negated imaginary bank to conv2d
(line 74). -/
noncomputable def convColImag (cfg : CWTConfig) (x : InputT) (b c : ℕ) :
    List (ℕ → ℝ) :=
  (List.range (sameOutLen x.timeIn cfg.stride)).map
    (fun j s => convSameAt (chanFirstVal cfg x b c) x.timeIn cfg.kernelSize
      cfg.stride (fun k => -cfg.bankImag k s) j)

/-- border_crop // stride (line 59). -/
def cropOf (cfg : CWTConfig) : ℕ := cfg.borderCrop / cfg.stride

/-- Cropped real response (line 78). -/
noncomputable def croppedReal (cfg : CWTConfig) (x : InputT) (b c : ℕ) :
    List (ℕ → ℝ) :=
  cropSlice (convColReal cfg x b c) (cropOf cfg)

/-- Cropped imaginary response (line 79). -/
noncomputable def croppedImag (cfg : CWTConfig) (x : InputT) (b c : ℕ) :
    List (ℕ → ℝ) :=
  cropSlice (convColImag cfg x b c) (cropOf cfg)

/-- tf.math.atan2(y, x): the argument of the complex number x + i*y. -/
noncomputable def atan2 (y x : ℝ) : ℝ := Complex.arg ⟨x, y⟩

/-- Result of call before the final layout transpose: extent of the
channel axis and, per batch and output channel, the cropped time list of
scale-indexed rows. -/
structure Scalogram where
  channelsOut : ℕ
  col : ℕ → ℕ → List (ℕ → ℝ)

/-- ContinuousWaveletTransform.call (lines 58-91) on a well-shaped rank-3
input: convolution, border crop, then output-mode formatting (lines
81-86); the complex branch concatenates the real and imaginary responses
along the channel axis. -/
noncomputable def tfCall (cfg : CWTConfig) (x : InputT) : Scalogram :=
  if cfg.outputformat = "magnitude" then
    { channelsOut := x.channels
      col := fun b c => List.zipWith
        (fun r i => fun s => Real.sqrt (r s ^ 2 + i s ^ 2))
        (croppedReal cfg x b c) (croppedImag cfg x b c) }
  else if cfg.outputformat = "phase" then
    { channelsOut := x.channels
      col := fun b c => List.zipWith (fun r i => fun s => atan2 (i s) (r s))
        (croppedReal cfg x b c) (croppedImag cfg x b c) }
  else
    { channelsOut := 2 * x.channels
      col := fun b c =>
        if c < x.channels then croppedReal cfg x b c
        else croppedImag cfg x b (c - x.channels) }

theorem convColReal_length (cfg : CWTConfig) (x : InputT) (b c : ℕ) :
    (convColReal cfg x b c).length = sameOutLen x.timeIn cfg.stride := by
  simp [convColReal]

theorem convColImag_length (cfg : CWTConfig) (x : InputT) (b c : ℕ) :
    (convColImag cfg x b c).length = sameOutLen x.timeIn cfg.stride := by
  simp [convColImag]

theorem croppedReal_length (cfg : CWTConfig) (x : InputT) (b c : ℕ) :
    (croppedReal cfg x b c).length =
      sameOutLen x.timeIn cfg.stride - 2 * cropOf cfg := by
  rw [croppedReal, cropSlice_length, convColReal_length]

theorem croppedImag_length (cfg : CWTConfig) (x : InputT) (b c : ℕ) :
    (croppedImag cfg x b c).length =
      sameOutLen x.timeIn cfg.stride - 2 * cropOf cfg := by
  rw [croppedImag, cropSlice_length, convColImag_length]

theorem tfCall_col_length (cfg : CWTConfig) (x : InputT) (b c : ℕ) :
    ((tfCall cfg x).col b c).length =
      sameOutLen x.timeIn cfg.stride - 2 * cropOf cfg := by
  unfold tfCall
  split_ifs
  · simp [List.length_zipWith, croppedReal_length, croppedImag_length]
  · simp [List.length_zipWith, croppedReal_length, croppedImag_length]
  · by_cases hch : c < x.channels
    · simp [hch, croppedReal_length]
    · simp [hch, croppedImag_length]

theorem sameOutLen_eq_ceil (T s : ℕ) (hs : 0 < s) :
    ((sameOutLen T s : ℕ) : ℤ) = ⌈(T : ℚ) / (s : ℚ)⌉ := by
  have hsq : (0 : ℚ) < (s : ℚ) := by exact_mod_cast hs
  symm
  rw [Int.ceil_eq_iff]
  have hq1 : sameOutLen T s * s ≤ T + s - 1 := Nat.div_mul_le_self _ _
  have hq2 : T + s - 1 < (sameOutLen T s + 1) * s :=
    (Nat.div_lt_iff_lt_mul hs).mp (Nat.lt_succ_self _)
  constructor
  · have hN : sameOutLen T s * s + 1 ≤ T + s := by omega
    have hQ : (sameOutLen T s : ℚ) * s + 1 ≤ (T : ℚ) + s := by
      exact_mod_cast hN
    rw [sub_lt_iff_lt_add]
    rw [div_add' _ _ _ (ne_of_gt hsq), lt_div_iff hsq]
    push_cast
    linarith
  · rw [add_mul, one_mul] at hq2
    have hN : T ≤ sameOutLen T s * s := by omega
    rw [div_le_iff hsq]
    push_cast
    exact_mod_cast hN

/-- Claim C5: with SAME padding the pre-crop time length is
ceil(time_in / stride); then crop = floor(border_crop / stride) samples
are removed from each end (none when crop = 0); in particular with
stride = 1 and border_crop = 0 the output time length is time_in, and
with stride = 1 and border_crop = B (2B within the input) it is
time_in - 2B. -/
theorem C5_output_length (cfg : CWTConfig) (x : InputT) (b c : ℕ)
    (hs : 0 < cfg.stride) :
    (((convColReal cfg x b c).length : ℕ) : ℤ) =
      ⌈(x.timeIn : ℚ) / (cfg.stride : ℚ)⌉ ∧
    ((tfCall cfg x).col b c).length =
      (convColReal cfg x b c).length -
        2 * (cfg.borderCrop / cfg.stride) ∧
    (cfg.stride = 1 → cfg.borderCrop = 0 →
      ((tfCall cfg x).col b c).length = x.timeIn) ∧
    (cfg.stride = 1 → 2 * cfg.borderCrop ≤ x.timeIn →
      ((tfCall cfg x).col b c).length = x.timeIn - 2 * cfg.borderCrop) := by
  have h1 := convColReal_length cfg x b c
  have h2 := tfCall_col_length cfg x b c
  refine ⟨?_, ?_, ?_, ?_⟩
  · rw [h1]
    exact sameOutLen_eq_ceil _ _ hs
  · rw [h2, h1]
    rfl
  · intro hst hbc
    rw [h2]
    unfold cropOf sameOutLen
    rw [hst, hbc]
    omega
  · intro hst hbc
    rw [h2]
    unfold cropOf sameOutLen
    rw [hst]
    omega

/-- Closed witness for C5 at a concrete configuration: border_crop = 1,
stride = 1, input time length 8. -/
theorem C5_output_length_witness :
    0 < (CWTConfig.mk 1 1 "complex" "channels_last" 1
        (fun _ _ => 0) (fun _ _ => 0)).stride ∧
    ((tfCall (CWTConfig.mk 1 1 "complex" "channels_last" 1
        (fun _ _ => 0) (fun _ _ => 0))
      (InputT.mk 1 8 1 (fun _ _ _ => 0))).col 0 0).length = 8 - 2 * 1 :=
  ⟨Nat.one_pos,
   (C5_output_length
     (CWTConfig.mk 1 1 "complex" "channels_last" 1
       (fun _ _ => 0) (fun _ _ => 0))
     (InputT.mk 1 8 1 (fun _ _ _ => 0)) 0 0 Nat.one_pos).2.2.2 rfl
     (by norm_num)⟩

theorem getD_zipWith {α β γ : Type} (f : α → β → γ) (l1 : List α)
    (l2 : List β) (t : ℕ) (d1 : α) (d2 : β) (d3 : γ)
    (h1 : t < l1.length) (h2 : t < l2.length) :
    (List.zipWith f l1 l2).getD t d3 = f (l1.getD t d1) (l2.getD t d2) := by
  have hz : t < (List.zipWith f l1 l2).length := by
    rw [List.length_zipWith]
    exact lt_min h1 h2
  rw [List.getD_eq_getElem _ _ hz, List.getD_eq_getElem _ _ h1,
    List.getD_eq_getElem _ _ h2, List.getElem_zipWith]

theorem croppedReal_mode (cfg : CWTConfig) (m : String) (x : InputT)
    (b c : ℕ) :
    croppedReal { cfg with outputformat := m } x b c =
      croppedReal cfg x b c := rfl

theorem croppedImag_mode (cfg : CWTConfig) (m : String) (x : InputT)
    (b c : ℕ) :
    croppedImag { cfg with outputformat := m } x b c =
      croppedImag cfg x b c := rfl

/-- Claim C6: for identical input and configuration differing only in
output mode, the elementwise magnitude sqrt(real^2 + imag^2) of the
complex-mode output (real in channel c, imaginary in channel
n_channels + c) equals the magnitude-mode output, the phase-mode output
equals atan2 of the same parts, and the channel extents are 2*n_channels
for complex and n_channels for magnitude and phase. -/
theorem C6_output_modes (cfg : CWTConfig) (x : InputT) (b c t s : ℕ)
    (hc : c < x.channels)
    (ht : t < sameOutLen x.timeIn cfg.stride - 2 * cropOf cfg) :
    (tfCall { cfg with outputformat := "magnitude" } x).channelsOut =
      x.channels ∧
    (tfCall { cfg with outputformat := "phase" } x).channelsOut =
      x.channels ∧
    (tfCall { cfg with outputformat := "complex" } x).channelsOut =
      2 * x.channels ∧
    ((tfCall { cfg with outputformat := "magnitude" } x).col b c).getD t
        (fun _ => 0) s =
      Real.sqrt
        ((((tfCall { cfg with outputformat := "complex" } x).col b c).getD t
            (fun _ => 0) s) ^ 2 +
          (((tfCall { cfg with outputformat := "complex" } x).col b
              (x.channels + c)).getD t (fun _ => 0) s) ^ 2) ∧
    ((tfCall { cfg with outputformat := "phase" } x).col b c).getD t
        (fun _ => 0) s =
      atan2
        (((tfCall { cfg with outputformat := "complex" } x).col b
            (x.channels + c)).getD t (fun _ => 0) s)
        (((tfCall { cfg with outputformat := "complex" } x).col b c).getD t
          (fun _ => 0) s) := by
  have hRl : t < (croppedReal cfg x b c).length := by
    rw [croppedReal_length]
    exact ht
  have hIl : t < (croppedImag cfg x b c).length := by
    rw [croppedImag_length]
    exact ht
  have hmagcol : (tfCall { cfg with outputformat := "magnitude" } x).col b c =
      List.zipWith (fun r i => fun u => Real.sqrt (r u ^ 2 + i u ^ 2))
        (croppedReal cfg x b c) (croppedImag cfg x b c) := rfl
  have hphasecol : (tfCall { cfg with outputformat := "phase" } x).col b c =
      List.zipWith (fun r i => fun u => atan2 (i u) (r u))
        (croppedReal cfg x b c) (croppedImag cfg x b c) := rfl
  have hcplxR : (tfCall { cfg with outputformat := "complex" } x).col b c =
      croppedReal cfg x b c := by
    have h0 : (tfCall { cfg with outputformat := "complex" } x).col b c =
        if c < x.channels then croppedReal cfg x b c
        else croppedImag cfg x b (c - x.channels) := rfl
    rw [h0, if_pos hc]
  have hcplxI : (tfCall { cfg with outputformat := "complex" } x).col b
      (x.channels + c) = croppedImag cfg x b c := by
    have h0 : (tfCall { cfg with outputformat := "complex" } x).col b
        (x.channels + c) =
        if x.channels + c < x.channels then
          croppedReal cfg x b (x.channels + c)
        else croppedImag cfg x b (x.channels + c - x.channels) := rfl
    rw [h0, if_neg (by omega), Nat.add_sub_cancel_left]
  refine ⟨rfl, rfl, rfl, ?_, ?_⟩
  · rw [hmagcol, hcplxR, hcplxI,
      getD_zipWith (fun r i => fun u => Real.sqrt (r u ^ 2 + i u ^ 2))
        (croppedReal cfg x b c) (croppedImag cfg x b c) t
        (fun _ => 0) (fun _ => 0) (fun _ => 0) hRl hIl]
  · rw [hphasecol, hcplxR, hcplxI,
      getD_zipWith (fun r i => fun u => atan2 (i u) (r u))
        (croppedReal cfg x b c) (croppedImag cfg x b c) t
        (fun _ => 0) (fun _ => 0) (fun _ => 0) hRl hIl]

/-- Concrete configuration for the C6 witness. -/
noncomputable def w6cfg : CWTConfig :=
  CWTConfig.mk 0 1 "complex" "channels_last" 1 (fun _ _ => 0) (fun _ _ => 0)

/-- Concrete single-sample input for the C6 witness. -/
noncomputable def w6x : InputT := InputT.mk 1 1 1 (fun _ _ _ => 0)

/-- Closed witness for C6 at the concrete configuration. -/
theorem C6_output_modes_witness :
    (0 < w6x.channels ∧
      0 < sameOutLen w6x.timeIn w6cfg.stride - 2 * cropOf w6cfg) ∧
    (tfCall { w6cfg with outputformat := "complex" } w6x).channelsOut =
      2 * w6x.channels :=
  ⟨⟨by decide, by decide⟩,
   (C6_output_modes w6cfg w6x 0 0 0 0 (by decide) (by decide)).2.2.1⟩
